import Mathlib

/-!
Shallow embedding of the anomaly-scoring engine of this repository
(`src/ml-models/model_predictor.py`, `src/ml-models/predictor_interface.py`,
`src/ml-models/train_model.py`) and proofs about the frozen claims.

Numeric values of the Python code (IEEE doubles) are modelled by `XFloat`:
either an exact rational (the real-valued semantics of finite doubles) or one
of the special values NaN / +inf / -inf, with the IEEE propagation rules the
Python/NumPy operations used by the code follow.  Machine-integer overflow
plays no role in this code base.
-/

deriving instance DecidableEq for Except

/-- An IEEE-style extended numeric value: a finite real (modelled exactly as a
rational), NaN, or a signed infinity. -/
inductive XFloat where
  | fin (q : ℚ)
  | nan
  | inf
  | ninf
deriving DecidableEq

namespace XFloat

/-- IEEE addition (as performed by `numpy` on doubles). -/
def add : XFloat → XFloat → XFloat
  | nan, _ => nan
  | _, nan => nan
  | inf, ninf => nan
  | ninf, inf => nan
  | inf, _ => inf
  | _, inf => inf
  | ninf, _ => ninf
  | _, ninf => ninf
  | fin a, fin b => fin (a + b)

/-- IEEE subtraction. -/
def sub : XFloat → XFloat → XFloat
  | nan, _ => nan
  | _, nan => nan
  | inf, inf => nan
  | ninf, ninf => nan
  | inf, _ => inf
  | ninf, _ => ninf
  | _, inf => ninf
  | _, ninf => inf
  | fin a, fin b => fin (a - b)

/-- IEEE multiplication. -/
def mul : XFloat → XFloat → XFloat
  | nan, _ => nan
  | _, nan => nan
  | inf, inf => inf
  | inf, ninf => ninf
  | ninf, inf => ninf
  | ninf, ninf => inf
  | inf, fin b => if b = 0 then nan else if 0 < b then inf else ninf
  | fin a, inf => if a = 0 then nan else if 0 < a then inf else ninf
  | ninf, fin b => if b = 0 then nan else if 0 < b then ninf else inf
  | fin a, ninf => if a = 0 then nan else if 0 < a then ninf else inf
  | fin a, fin b => fin (a * b)

/-- IEEE division by a finite constant (the code only ever divides by the
literal constants `5` and `threshold * 2`). -/
def divc : XFloat → ℚ → XFloat
  | nan, _ => nan
  | inf, c => if c = 0 then inf else if 0 < c then inf else ninf
  | ninf, c => if c = 0 then ninf else if 0 < c then ninf else inf
  | fin a, c =>
      if c = 0 then (if a = 0 then nan else if 0 < a then inf else ninf)
      else fin (a / c)

/-- IEEE `<` comparison: any comparison involving NaN is false. -/
def lt : XFloat → XFloat → Bool
  | nan, _ => false
  | _, nan => false
  | fin a, fin b => decide (a < b)
  | fin _, inf => true
  | fin _, ninf => false
  | inf, _ => false
  | ninf, ninf => false
  | ninf, _ => true

/-- IEEE `>` comparison, `a > b` being evaluated by Python as `b < a`. -/
def gt (a b : XFloat) : Bool := lt b a

/-- Python's built-in `min(x, y)`: returns `y` when `y < x`, else `x`
(so `min(nan, 1.0)` is `nan`, since no comparison with NaN holds). -/
def pymin (x y : XFloat) : XFloat := if lt y x then y else x

end XFloat

/-- A JSON scalar value as the interface hands it to the predictor: a number
(possibly non-finite, Python's `json.loads` accepts `NaN`/`Infinity`) or a
string.  Other JSON value kinds play no role in any claim. -/
inductive JVal where
  | num (x : XFloat)
  | str (s : String)
deriving DecidableEq

/-- An input record (the parsed JSON object): association list from key to
value; lookup takes the first binding, matching Python `dict` access for the
unique-key dictionaries `json.loads` produces. -/
def InputData := List (String × JVal)

/-- Python `data[k]` / `k in data` on a string-keyed dict. -/
def getKey (d : InputData) (k : String) : Option JVal :=
  (d.find? (fun p => p.1 = k)).map (·.2)

/-- Python `d[key]` lookup on the predictor's `self.models` / `self.scalers`
dictionaries, whose keys are strings while the lookup key is whatever value
the machineType entry of the request held (membership only holds for an
equal string). -/
def dictFind {β : Type} (m : List (String × β)) (k : JVal) : Option β :=
  (m.find? (fun p => k = JVal.str p.1)).map (·.2)

/-- A 5-dimensional feature vector, fixed order
`[vibration, temperature, pressure, flowRate, rotationalSpeed]`. -/
def Vec5X := Fin 5 → XFloat

/-- NumPy sum over the five entries of a 1-by-5 array. -/
def xsum5 (v : Vec5X) : XFloat :=
  ((((v 0).add (v 1)).add (v 2)).add (v 3)).add (v 4)

/-- NumPy mean of the squared elementwise difference of two 1-by-5 arrays
(`model_predictor.py` line 96). -/
def meanSquaredError (a b : Vec5X) : XFloat :=
  (xsum5 (fun i => ((a i).sub (b i)).mul ((a i).sub (b i)))).divc 5

/-- The fixed global anomaly threshold (`model_predictor.py` line 99). -/
def threshold : ℚ := 1/100

/-- Python min of mse divided by twice the threshold, and 1.0
(`model_predictor.py` line 103). -/
def anomaly_probability (mse : XFloat) : XFloat :=
  XFloat.pymin (mse.divc (threshold * 2)) (XFloat.fin 1)

/-- Errors raised by the predictor core: the two `ValueError`s of
`model_predictor.py` (no model / no scaler for a machine type) and the
`KeyError` of a `data[k]` access on a missing key; `notNumeric` stands for the
conversion error the numeric stack raises when a present value is a string. -/
inductive PredError where
  | noModel (mt : JVal)
  | noScaler (mt : JVal)
  | missingField (k : String)
  | notNumeric (k : String)
deriving DecidableEq

/-- The state of a `ModelPredictor` after `load_models`: the `self.models`
and `self.scalers` dictionaries (insertion-ordered association lists keyed by
machine-type name); each loaded artifact is an opaque function on normalized
feature vectors. -/
structure Registry where
  models : List (String × (Vec5X → Vec5X))
  scalers : List (String × (Vec5X → Vec5X))

/-- The result dictionary built by `predict_anomaly` (lines 105-116);
`predictionDetails` is flattened into its two fields. -/
structure PredictionResult where
  timestamp : JVal
  machineId : JVal
  machineType : JVal
  anomalyProbability : XFloat
  isAnomaly : Bool
  mse : XFloat
  confidence : XFloat
  recommendedAction : String
deriving DecidableEq

/-- Reading one measurement out of the record: `data[k]` raises `KeyError`
when absent; a present string value is only rejected later by the numeric
stack (modelled as `notNumeric`) — the source performs no validation of its
own on present values (in particular no finiteness check, NaN flows through). -/
def getMeasurement (data : InputData) (k : String) : Except PredError XFloat :=
  match getKey data k with
  | none => .error (.missingField k)
  | some (.num x) => .ok x
  | some (.str _) => .error (.notNumeric k)

/-- Method `ModelPredictor.preprocess_data` (lines 58-78): scaler presence check,
feature extraction in the fixed order, then `scaler.transform`. -/
def preprocess_data (reg : Registry) (data : InputData) (mt : JVal) :
    Except PredError Vec5X :=
  match dictFind reg.scalers mt with
  | none => .error (.noScaler mt)
  | some scaler =>
    match getMeasurement data "vibration", getMeasurement data "temperature",
          getMeasurement data "pressure", getMeasurement data "flowRate",
          getMeasurement data "rotationalSpeed" with
    | .ok v, .ok t, .ok p, .ok f, .ok r => .ok (scaler ![v, t, p, f, r])
    | .error e, _, _, _, _ => .error e
    | _, .error e, _, _, _ => .error e
    | _, _, .error e, _, _ => .error e
    | _, _, _, .error e, _ => .error e
    | _, _, _, _, .error e => .error e

/-- Method `ModelPredictor.predict_anomaly` (lines 80-119): model presence check,
preprocessing, forward pass, reconstruction MSE, thresholding, and assembly
of the result dictionary (whose construction reads the timestamp and
machineId entries of the record, raising a key error when absent). -/
def predict_anomaly (reg : Registry) (data : InputData) (mt : JVal) :
    Except PredError PredictionResult :=
  match dictFind reg.models mt with
  | none => .error (.noModel mt)
  | some model =>
    match preprocess_data reg data mt with
    | .error e => .error e
    | .ok features_scaled =>
      let prediction := model features_scaled
      let mse := meanSquaredError features_scaled prediction
      let is_anomaly := XFloat.gt mse (.fin threshold)
      let prob := anomaly_probability mse
      match getKey data "timestamp" with
      | none => .error (.missingField "timestamp")
      | some ts =>
        match getKey data "machineId" with
        | none => .error (.missingField "machineId")
        | some mid =>
          .ok { timestamp := ts
                machineId := mid
                machineType := mt
                anomalyProbability := prob
                isAnomaly := is_anomaly
                mse := mse
                confidence := XFloat.sub (.fin 1) prob
                recommendedAction :=
                  if is_anomaly then "Inspect immediately" else "No action required" }

/-- Method `ModelPredictor.get_machine_types` (lines 121-125): the keys of
`self.models`. -/
def get_machine_types (reg : Registry) : List String := reg.models.map (·.1)

/-- The four machine types of `load_models` (line 38) and of
`train_model.py`'s `main` (line 172). -/
def machine_types : List String := ["Pump", "Compressor", "Motor", "Valve"]

/-- The file-system/deserialization environment `load_models` runs against:
which artifact files exist for a machine-type name, and what
`tf.keras.models.load_model` / `joblib.load` produce for it (`.error` is a
raised exception). -/
structure LoadEnv where
  modelFileExists : String → Bool
  scalerFileExists : String → Bool
  loadModel : String → Except String (Vec5X → Vec5X)
  loadScaler : String → Except String (Vec5X → Vec5X)

/-- One iteration of the `load_models` loop (lines 40-56): inside a `try`,
test that both files exist, load the model then the scaler, and only then
insert both map entries; any exception (either load failing) leaves both maps
untouched for that type and processing continues with the next type. -/
def load_step (env : LoadEnv) (reg : Registry) (mt : String) : Registry :=
  if env.modelFileExists mt && env.scalerFileExists mt then
    match env.loadModel mt with
    | .error _ => reg
    | .ok model =>
      match env.loadScaler mt with
      | .error _ => reg
      | .ok scaler =>
        { models := reg.models ++ [(mt, model)]
          scalers := reg.scalers ++ [(mt, scaler)] }
  else reg

/-- Method `ModelPredictor.load_models` (lines 34-56). -/
def load_models (env : LoadEnv) : Registry :=
  machine_types.foldl (load_step env) ⟨[], []⟩

/-- Whether the artifact pair for a machine type loads successfully in `env`
(both files exist and both deserializations succeed), together with the loaded
pair. -/
def loadPair (env : LoadEnv) (mt : String) :
    Option ((Vec5X → Vec5X) × (Vec5X → Vec5X)) :=
  if env.modelFileExists mt && env.scalerFileExists mt then
    match env.loadModel mt, env.loadScaler mt with
    | .ok m, .ok s => some (m, s)
    | _, _ => none
  else none

/-!
### The process-boundary adapter (`predictor_interface.py`)

Its input space is partitioned exactly as the code's control flow
distinguishes it: empty stdin (`if not input_data: raise`), stdin that
`json.loads` rejects, and stdin parsed into a record.
-/

/-- The adapter's standard input, partitioned by how the first lines of
`main` treat it. -/
inductive Stdin where
  | empty
  | malformed
  | parsed (d : InputData)

/-- The exceptions the adapter's `try` body can raise. -/
inductive AdapterError where
  | noInput
  | parseError
  | missingField (k : String)
  | predErr (e : PredError)
deriving DecidableEq

/-- The observable outcome of one adapter process run:
`success r` = result JSON on stdout, exit code 0;
`jsonError` = the structured error JSON (error message, best-effort echoed
`timestamp`/`machineId`/`machineType`, degraded `anomalyProbability: 0.0`,
`isAnomaly: false`) on stdout, exit code 1;
`crash e` = an exception escapes `main` (no JSON written, Python prints a
traceback and exits with a nonzero code). -/
inductive AdapterOutcome where
  | success (r : PredictionResult)
  | jsonError (e : AdapterError) (ts mid mt : JVal)
  | crash (e : AdapterError)

/-- The `required_fields` list of `predictor_interface.py` line 35. -/
def required_fields : List String :=
  ["timestamp", "vibration", "temperature", "pressure",
   "flowRate", "rotationalSpeed", "machineType", "machineId"]

/-- The two-argument dict get with an empty-string default, as used by the
error handler (lines 52-54). -/
def getEcho (d : InputData) (k : String) : JVal :=
  (getKey d k).getD (JVal.str "")

/-- The `try` body of `main` (lines 25-45): read stdin, raise on empty input,
parse, check the required fields, run the prediction.  The first component
records whether the local variable `data` was bound before the exception
(it is bound exactly when parsing succeeded); the second is the body's
outcome. -/
def adapter_try_body (reg : Registry) (inp : Stdin) :
    Option InputData × Except AdapterError PredictionResult :=
  match inp with
  | .empty => (none, .error .noInput)
  | .malformed => (none, .error .parseError)
  | .parsed d =>
    (some d,
      match required_fields.find? (fun f => (getKey d f).isNone) with
      | some f => .error (.missingField f)
      | none =>
        match getKey d "machineType" with
        | none => .error (.missingField "machineType")
        | some mtv =>
          match predict_anomaly reg d mtv with
          | .ok r => .ok r
          | .error e => .error (.predErr e))

/-- Function `main` of `predictor_interface.py` (lines 24-63): on success print the
result; on an exception run the handler, which builds `error_result` from
`data.get(...)` — when `data` was never bound (empty or malformed input) that
access itself raises `NameError`, so no JSON is written and the process
crashes with a traceback. -/
def interface_main (reg : Registry) (inp : Stdin) : AdapterOutcome :=
  match adapter_try_body reg inp with
  | (_, .ok r) => .success r
  | (some d, .error e) =>
      .jsonError e (getEcho d "timestamp") (getEcho d "machineId")
        (getEcho d "machineType")
  | (none, .error e) => .crash e

/-!
### The training pipeline (`train_model.py`)
-/

/-- One row of the `sensor_data` query result (`load_data_from_db`), with the
real-valued timestamp used for ordering. -/
structure Row where
  timestamp : ℚ
  vibration : ℚ
  temperature : ℚ
  pressure : ℚ
  flow_rate : ℚ
  rotational_speed : ℚ
deriving DecidableEq

/-- The feature columns selected by `prepare_data` (line 76), in the fixed
order. -/
def rowFeatures (r : Row) : Fin 5 → ℚ :=
  ![r.vibration, r.temperature, r.pressure, r.flow_rate, r.rotational_speed]

/-- A fitted `MinMaxScaler`: per-dimension data minimum and maximum. -/
structure ScalerState where
  dataMin : Fin 5 → ℚ
  dataMax : Fin 5 → ℚ
deriving DecidableEq

/-- One step of the running per-dimension min/max computation. -/
def mmStep (st : ScalerState) (w : Fin 5 → ℚ) : ScalerState :=
  { dataMin := fun i => min (st.dataMin i) (w i)
    dataMax := fun i => max (st.dataMax i) (w i) }

/-- The min-max scaler fit: per-dimension min and max over the sample; sklearn
raises on an empty sample, modelled as `none`. -/
def minmax_fit : List (Fin 5 → ℚ) → Option ScalerState
  | [] => none
  | v :: vs => some (vs.foldl mmStep ⟨v, v⟩)

/-- sklearn's `_handle_zeros_in_scale`: a zero per-dimension range is replaced
by 1 so that a degenerate dimension maps through unchanged (no NaN). -/
def handleZero (r : ℚ) : ℚ := if r = 0 then 1 else r

/-- The min-max scaler transform with the default unit feature range:
`(x - dataMin) / (dataMax - dataMin)` per dimension. -/
def minmax_transform (st : ScalerState) (v : Fin 5 → ℚ) : Fin 5 → ℚ :=
  fun i => (v i - st.dataMin i) / handleZero (st.dataMax i - st.dataMin i)

/-- The value `prepare_data` returns: feature tensor `X`, target tensor `y`
and the fitted scaler. -/
structure PrepareOut where
  X : List (Fin 5 → ℚ)
  y : List (Fin 5 → ℚ)
  scaler : ScalerState
deriving DecidableEq

/-- Function `prepare_data` (`train_model.py` lines 71-87): select the feature columns
of ALL rows it is given, fit the scaler on them, scale them, and return
`X = y = ` the scaled features (the autoencoder objective).  Note the fit runs
on the whole input — `train_model_for_machine_type` only splits afterwards. -/
def prepare_data (rows : List Row) : Option PrepareOut :=
  let features := rows.map rowFeatures
  (minmax_fit features).map fun scaler =>
    let features_scaled := features.map (minmax_transform scaler)
    ⟨features_scaled, features_scaled, scaler⟩

/-- Ascending-by-timestamp comparator (the pandas sort by timestamp). -/
def ascByTime (a b : Row) : Bool := decide (a.timestamp ≤ b.timestamp)

/-- Descending-by-timestamp comparator (`ORDER BY timestamp DESC`). -/
def descByTime (a b : Row) : Bool := decide (b.timestamp ≤ a.timestamp)

/-- Function `load_data_from_db` on an established connection (`train_model.py` lines
49-65): the SQL query returns the rows of the table in descending timestamp
order cut at `LIMIT`, and the frame is then re-sorted ascending by timestamp.
(Ties are broken by a fixed stable sort; neither SQL nor the default pandas
sort promises an order among equal timestamps.) -/
def load_rows (tableRows : List Row) (limit : ℕ) : List Row :=
  (((tableRows.mergeSort descByTime).take limit).mergeSort ascByTime)

/-- Function `load_data_from_db` including the connection/query failure path, which
returns `None`. -/
def load_data_from_db (tableRows : Option (List Row)) (limit : ℕ) :
    Option (List Row) :=
  tableRows.map (fun rs => load_rows rs limit)

/-- The environment the training pipeline runs against, with the model type
`μ` abstract: the per-machine-type database query outcome (`none` = connection
failure) and the outcome of building+fitting the Keras model on the four
tensors passed to `model.fit` (an `.error` is a raised exception), plus the
loss evaluation. -/
structure TrainEnv (μ : Type) where
  dbRows : String → Option (List Row)
  fit : String → List (Fin 5 → ℚ) → List (Fin 5 → ℚ) →
        List (Fin 5 → ℚ) → List (Fin 5 → ℚ) → Except String μ
  evalLoss : String → μ → List (Fin 5 → ℚ) → List (Fin 5 → ℚ) → ℚ

/-- The dictionary `train_model_for_machine_type` returns on success. -/
structure TrainResult (μ : Type) where
  model : μ
  scaler : ScalerState
  train_loss : ℚ
  test_loss : ℚ
  model_filename : String
  scaler_filename : String

/-- Function `train_model_for_machine_type` (lines 105-165): load the data (`return
None` on a `None` frame or fewer than 100 rows), prepare it, `return None` on
fewer than 10 prepared rows, split at `int(0.8 * len(X))` (= `⌊4n/5⌋`, Python
`int` truncation of `0.8 * n`), fit the model on the first part with the rest
as validation data, and assemble the result.  A raised exception (`.error`)
propagates to the caller. -/
def train_model_for_machine_type (env : TrainEnv μ) (mt : String) :
    Except String (Option (TrainResult μ)) :=
  match load_data_from_db (env.dbRows mt) 10000 with
  | none => .ok none
  | some df =>
    if df.length < 100 then .ok none
    else
      match prepare_data df with
      | none => .error "empty training frame"
      | some p =>
        if p.X.length < 10 then .ok none
        else
          let split_idx := (4 * p.X.length) / 5
          let X_train := p.X.take split_idx
          let X_test := p.X.drop split_idx
          let y_train := p.y.take split_idx
          let y_test := p.y.drop split_idx
          match env.fit mt X_train y_train X_test y_test with
          | .error e => .error e
          | .ok model =>
            .ok (some
              { model := model
                scaler := p.scaler
                train_loss := env.evalLoss mt model X_train y_train
                test_loss := env.evalLoss mt model X_test y_test
                model_filename := mt.toLower ++ "_model.h5"
                scaler_filename := mt.toLower ++ "_scaler.pkl" })

/-- Function `main` of `train_model.py` (lines 167-198): iterate over the four machine
types, collecting the successful results; a `None` result or a raised
exception for one machine type is logged and the loop continues with the
next. -/
def train_main (env : TrainEnv μ) : List (String × TrainResult μ) :=
  machine_types.foldl
    (fun acc mt =>
      match train_model_for_machine_type env mt with
      | .ok (some r) => acc ++ [(mt, r)]
      | .ok none => acc
      | .error _ => acc)
    []

/-!
### Concrete fixtures used by witnesses and counterexamples

A registry as `load_models` would produce it from on-disk artifacts whose
deserialized scaler is the identity map (a min of 0 and max of 1 per
dimension makes the min-max scaler the identity) and whose model is either
the identity network or a network off by a constant 0.5 per dimension.
-/

/-- The identity artifact function. -/
def idArtifact : Vec5X → Vec5X := fun v => v

/-- A reconstruction network whose output deviates from its input by a
constant offset of 0.5 in every dimension. -/
def offsetHalfModel : Vec5X → Vec5X := fun v i => (v i).add (.fin (1/2))

/-- Registry with identity scaler and identity model for `Pump`. -/
def regIdentity : Registry :=
  ⟨[("Pump", idArtifact)], [("Pump", idArtifact)]⟩

/-- Registry with identity scaler and the offset-by-0.5 model for `Pump`. -/
def regOffset : Registry :=
  ⟨[("Pump", offsetHalfModel)], [("Pump", idArtifact)]⟩

/-- The reading of spec §8 scenario 1. -/
def readingOk : InputData :=
  [("timestamp", .str "2023-01-01T00:00:00Z"), ("machineId", .str "M001"),
   ("machineType", .str "Pump"),
   ("vibration", .num (.fin 1)), ("temperature", .num (.fin 50)),
   ("pressure", .num (.fin 5)), ("flowRate", .num (.fin 20)),
   ("rotationalSpeed", .num (.fin 3000))]

/-- The result `predict_anomaly` produces for `regIdentity` on `readingOk`
(scenario 1 of spec §8: mse 0, not anomalous, probability 0, confidence 1). -/
def resultIdentity : PredictionResult :=
  { timestamp := .str "2023-01-01T00:00:00Z"
    machineId := .str "M001"
    machineType := .str "Pump"
    anomalyProbability := .fin 0
    isAnomaly := false
    mse := .fin 0
    confidence := .fin 1
    recommendedAction := "No action required" }

/-- The result `predict_anomaly` produces for `regOffset` on `readingOk`
(scenario 2 of spec §8: mse 0.25, anomalous, probability saturated at 1). -/
def resultOffset : PredictionResult :=
  { timestamp := .str "2023-01-01T00:00:00Z"
    machineId := .str "M001"
    machineType := .str "Pump"
    anomalyProbability := .fin 1
    isAnomaly := true
    mse := .fin (1/4)
    confidence := .fin 0
    recommendedAction := "Inspect immediately" }

/-- The five measurement keys of the data model. -/
def measurement_keys : List String :=
  ["vibration", "temperature", "pressure", "flowRate", "rotationalSpeed"]

/-- The record `readingOk` with the vibration measurement replaced by NaN (Python's
`json.loads` accepts `NaN` as a number literal). -/
def readingNaN : InputData :=
  [("timestamp", .str "2023-01-01T00:00:00Z"), ("machineId", .str "M001"),
   ("machineType", .str "Pump"),
   ("vibration", .num .nan), ("temperature", .num (.fin 50)),
   ("pressure", .num (.fin 5)), ("flowRate", .num (.fin 20)),
   ("rotationalSpeed", .num (.fin 3000))]

/-- The record `readingOk` with the vibration key removed entirely. -/
def readingMissingVib : InputData :=
  [("timestamp", .str "2023-01-01T00:00:00Z"), ("machineId", .str "M001"),
   ("machineType", .str "Pump"),
   ("temperature", .num (.fin 50)),
   ("pressure", .num (.fin 5)), ("flowRate", .num (.fin 20)),
   ("rotationalSpeed", .num (.fin 3000))]

/-- The result the predictor produces on the NaN reading: NaN propagates
through scaling, reconstruction and the MSE; `mse > threshold` is false for
NaN (so `isAnomaly = false`) and `min(nan, 1.0)` is NaN. -/
def resultNaN : PredictionResult :=
  { timestamp := .str "2023-01-01T00:00:00Z"
    machineId := .str "M001"
    machineType := .str "Pump"
    anomalyProbability := .nan
    isAnomaly := false
    mse := .nan
    confidence := .nan
    recommendedAction := "No action required" }

/-- A load environment in which the model file for `Valve` is missing while
the other three machine types load successfully. -/
def envThree : LoadEnv :=
  { modelFileExists := fun mt => mt != "Valve"
    scalerFileExists := fun _ => true
    loadModel := fun _ => .ok idArtifact
    loadScaler := fun _ => .ok idArtifact }

/-- A concrete helper row with all five feature values equal to `x` and
timestamp `t`. -/
def mkRow (t x : ℚ) : Row := ⟨t, x, x, x, x, x⟩

/-- Five training rows; the fifth (validation-range) row carries the maximum. -/
def d1C : List Row :=
  [mkRow 0 0, mkRow 1 1, mkRow 2 2, mkRow 3 3, mkRow 4 10]

/-- Same first four rows, different fifth (validation-range) row. -/
def d2C : List Row :=
  [mkRow 0 0, mkRow 1 1, mkRow 2 2, mkRow 3 3, mkRow 4 20]

/-- The concrete `PrepareOut` for `d1C` (recovered definitionally from the
pipeline itself). -/
def p1C : PrepareOut :=
  (prepare_data d1C).getD ⟨[], [], ⟨fun _ => 0, fun _ => 0⟩⟩

/-- A two-row table used to witness C9 and the training claims. -/
def tableW : List Row := [mkRow 2 1, mkRow 1 0]

/-- The concrete loaded/prepared data for `tableW`. -/
def pW : PrepareOut :=
  (prepare_data (load_rows tableW 10000)).getD
    ⟨[], [], ⟨fun _ => 0, fun _ => 0⟩⟩

/-- The entry the training `main` records for one machine type (`None`
results and raised exceptions are both skipped). -/
def train_entry (env : TrainEnv μ) (mt : String) : Option (TrainResult μ) :=
  match train_model_for_machine_type env mt with
  | .ok (some r) => some r
  | .ok none => none
  | .error _ => none

/-- A training environment with data only for `Pump` — and too little of it. -/
def envTr : TrainEnv Unit :=
  { dbRows := fun mt => if mt = "Pump" then some tableW else none
    fit := fun _ _ _ _ _ => .ok ()
    evalLoss := fun _ _ _ _ => 0 }


/-!
## Helper lemmas
-/

/-- Inversion on a successful `predict_anomaly` call: how the fields of the
returned result dictionary relate (lines 96-116 of `model_predictor.py`). -/
theorem predict_ok_fields {reg : Registry} {data : InputData} {mt : JVal}
    {r : PredictionResult} (h : predict_anomaly reg data mt = .ok r) :
    r.isAnomaly = XFloat.gt r.mse (.fin threshold) ∧
    r.anomalyProbability = anomaly_probability r.mse ∧
    r.confidence = XFloat.sub (.fin 1) r.anomalyProbability ∧
    r.machineType = mt ∧
    r.recommendedAction =
      (if r.isAnomaly then "Inspect immediately" else "No action required") := by
  simp only [predict_anomaly] at h
  split at h
  · exact absurd h (by simp)
  · split at h
    · exact absurd h (by simp)
    · split at h
      · exact absurd h (by simp)
      · split at h
        · exact absurd h (by simp)
        · injection h with h
          subst h
          exact ⟨rfl, rfl, rfl, rfl, rfl⟩

/-- On finite operands the extended comparison `gt` is the rational strict
order. -/
theorem XFloat.gt_fin_fin (a b : ℚ) :
    XFloat.gt (.fin a) (.fin b) = decide (b < a) := rfl

/-- On a finite mse the probability mapping of line 103 is the exact linear
saturation `min (mse / (2·threshold)) 1`. -/
theorem anomaly_probability_fin (q : ℚ) :
    anomaly_probability (.fin q) = .fin (min (q / (threshold * 2)) 1) := by
  have hc : (threshold * 2 : ℚ) ≠ 0 := by norm_num [threshold]
  simp only [anomaly_probability, XFloat.divc, XFloat.pymin, if_neg hc,
    XFloat.lt]
  rcases lt_or_le 1 (q / (threshold * 2)) with hlt | hle
  · simp [hlt, min_eq_right hlt.le]
  · simp [not_lt.mpr hle, min_eq_left hle]

/-!
## Claims
-/

/-- C2. For every successful prediction, the anomaly decision uses the
fixed global threshold 0.01 with strict greater-than semantics: `isAnomaly`
is true iff `mse > 0.01`, and an mse exactly equal to 0.01 is classified not
anomalous. -/
theorem C2_fixed_threshold_strict {reg : Registry} {data : InputData}
    {mt : JVal} {r : PredictionResult}
    (h : predict_anomaly reg data mt = .ok r) :
    threshold = 1/100 ∧
    r.isAnomaly = XFloat.gt r.mse (.fin (1/100)) ∧
    (∀ q : ℚ, r.mse = .fin q → (r.isAnomaly = true ↔ 1/100 < q)) ∧
    (r.mse = .fin (1/100) → r.isAnomaly = false) := by
  obtain ⟨hA, -, -, -, -⟩ := predict_ok_fields h
  have ht : threshold = 1/100 := rfl
  refine ⟨ht, by rw [hA, ht], ?_, ?_⟩
  · intro q hq
    rw [hA, hq, ht, XFloat.gt_fin_fin]
    simp
  · intro hq
    rw [hA, hq, ht, XFloat.gt_fin_fin]
    simp

/-- Witness for C2 at a concrete successful prediction (identity artifacts,
scenario-1 reading; the resulting mse is 0). -/
theorem C2_witness :
    threshold = 1/100 ∧
    resultIdentity.isAnomaly = XFloat.gt resultIdentity.mse (.fin (1/100)) ∧
    (∀ q : ℚ, resultIdentity.mse = .fin q →
      (resultIdentity.isAnomaly = true ↔ 1/100 < q)) ∧
    (resultIdentity.mse = .fin (1/100) → resultIdentity.isAnomaly = false) :=
  C2_fixed_threshold_strict
    (show predict_anomaly regIdentity readingOk (.str "Pump") =
      .ok resultIdentity by with_unfolding_all rfl)

/-- C3. For every successful prediction, `anomalyProbability` equals
`min(mse / (2 * 0.01), 1.0)`; on finite `mse ≥ 0` that mapping is
monotonically non-decreasing, never negative, lies in `[0, 1]`, and equals
exactly 1.0 whenever `mse ≥ 0.02`; `confidence = 1 - anomalyProbability`. -/
theorem C3_probability_saturation {reg : Registry} {data : InputData}
    {mt : JVal} {r : PredictionResult}
    (h : predict_anomaly reg data mt = .ok r) :
    r.anomalyProbability = anomaly_probability r.mse ∧
    r.confidence = XFloat.sub (.fin 1) r.anomalyProbability ∧
    (∀ q : ℚ, anomaly_probability (.fin q) = .fin (min (q / (2 * (1/100))) 1)) ∧
    (∀ q1 q2 : ℚ, 0 ≤ q1 → q1 ≤ q2 →
      ∃ p1 p2 : ℚ, anomaly_probability (.fin q1) = .fin p1 ∧
        anomaly_probability (.fin q2) = .fin p2 ∧
        p1 ≤ p2 ∧ 0 ≤ p1 ∧ p1 ≤ 1 ∧ p2 ≤ 1) ∧
    (∀ q : ℚ, 2 * (1/100) ≤ q → anomaly_probability (.fin q) = .fin 1) := by
  obtain ⟨-, hP, hC, -, -⟩ := predict_ok_fields h
  have hfin : ∀ q : ℚ,
      anomaly_probability (.fin q) = .fin (min (q / (2 * (1/100))) 1) := by
    intro q
    rw [anomaly_probability_fin]
    norm_num [threshold]
  refine ⟨hP, hC, hfin, ?_, ?_⟩
  · intro q1 q2 hq1 hq12
    refine ⟨min (q1 / (2 * (1/100))) 1, min (q2 / (2 * (1/100))) 1,
      hfin q1, hfin q2, ?_, ?_, min_le_right _ _, min_le_right _ _⟩
    · gcongr
    · exact le_min (by positivity) (by norm_num)
  · intro q hq
    rw [hfin q, min_eq_right]
    rw [le_div_iff₀ (by norm_num)]
    linarith

/-- Witness for C3 at the same concrete successful prediction as C2. -/
theorem C3_witness :
    resultIdentity.anomalyProbability = anomaly_probability resultIdentity.mse ∧
    resultIdentity.confidence =
      XFloat.sub (.fin 1) resultIdentity.anomalyProbability ∧
    (∀ q : ℚ, anomaly_probability (.fin q) = .fin (min (q / (2 * (1/100))) 1)) ∧
    (∀ q1 q2 : ℚ, 0 ≤ q1 → q1 ≤ q2 →
      ∃ p1 p2 : ℚ, anomaly_probability (.fin q1) = .fin p1 ∧
        anomaly_probability (.fin q2) = .fin p2 ∧
        p1 ≤ p2 ∧ 0 ≤ p1 ∧ p1 ≤ 1 ∧ p2 ≤ 1) ∧
    (∀ q : ℚ, 2 * (1/100) ≤ q → anomaly_probability (.fin q) = .fin 1) :=
  C3_probability_saturation
    (show predict_anomaly regIdentity readingOk (.str "Pump") =
      .ok resultIdentity by with_unfolding_all rfl)

/-- C4. The reconstruction error is the mean over the five dimensions of
the squared differences; with identity scaling and a reconstruction off by a
constant 0.5 per dimension the prediction has `mse = 0.25`,
`isAnomaly = true` and `anomalyProbability = 1.0`. -/
theorem C4_mse_is_mean_of_squares :
    (∀ a b : Fin 5 → ℚ,
      meanSquaredError (fun i => .fin (a i)) (fun i => .fin (b i)) =
        .fin ((∑ i : Fin 5, (a i - b i)^2) / 5)) ∧
    predict_anomaly regOffset readingOk (.str "Pump") = .ok resultOffset ∧
    resultOffset.mse = .fin (1/4) ∧ resultOffset.isAnomaly = true ∧
    resultOffset.anomalyProbability = .fin 1 := by
  refine ⟨?_, by with_unfolding_all rfl, rfl, rfl, rfl⟩
  intro a b
  simp only [meanSquaredError, xsum5, XFloat.sub, XFloat.mul, XFloat.add,
    XFloat.divc, Fin.sum_univ_five, XFloat.fin.injEq]
  norm_num
  ring

/-- C5, counterexample. The claim "any non-finite measurement value fails
with `ValidationError` and no `PredictionResult` is produced" is false: the
code validates only key presence, so a reading whose vibration is NaN passes
preprocessing and a `PredictionResult` (with NaN mse) is produced. -/
theorem C5_counterexample :
    getKey readingNaN "vibration" = some (.num .nan) ∧
    predict_anomaly regIdentity readingNaN (.str "Pump") = .ok resultNaN ∧
    interface_main regIdentity (.parsed readingNaN) =
      .success resultNaN := by
  refine ⟨by with_unfolding_all rfl, by with_unfolding_all rfl, ?_⟩
  with_unfolding_all rfl

/-- C5, amended. Missing any of the five measurement keys makes the
prediction fail with a `ValidationError` (no result is produced, the adapter
answers with the error JSON); but present values are NOT validated further by
the source: whenever a scaler is registered and all five keys are bound to
numbers — finite or not — preprocessing succeeds. -/
theorem C5_missing_key_fails_but_values_unchecked :
    (∀ (reg : Registry) (d : InputData) (k : String),
      k ∈ measurement_keys → getKey d k = none →
      ∃ f, interface_main reg (.parsed d) =
        .jsonError (.missingField f) (getEcho d "timestamp")
          (getEcho d "machineId") (getEcho d "machineType")) ∧
    (∀ (reg : Registry) (d : InputData) (mt : JVal) (sc : Vec5X → Vec5X),
      dictFind reg.scalers mt = some sc →
      (∀ k ∈ measurement_keys, ∃ x, getKey d k = some (.num x)) →
      ∃ v, preprocess_data reg d mt = .ok v) := by
  constructor
  · intro reg d k hk hmiss
    have hreq : k ∈ required_fields := by
      fin_cases hk <;> simp [required_fields]
    cases hf : required_fields.find? (fun f => (getKey d f).isNone) with
    | none =>
      exfalso
      rw [List.find?_eq_none] at hf
      exact absurd (by simp [hmiss]) (hf k hreq)
    | some f =>
      refine ⟨f, ?_⟩
      simp [interface_main, adapter_try_body, hf]
  · intro reg d mt sc hsc hall
    obtain ⟨xv, hv⟩ := hall "vibration" (by simp [measurement_keys])
    obtain ⟨xt, ht⟩ := hall "temperature" (by simp [measurement_keys])
    obtain ⟨xp, hp⟩ := hall "pressure" (by simp [measurement_keys])
    obtain ⟨xf, hf⟩ := hall "flowRate" (by simp [measurement_keys])
    obtain ⟨xr, hr⟩ := hall "rotationalSpeed" (by simp [measurement_keys])
    exact ⟨sc ![xv, xt, xp, xf, xr],
      by simp [preprocess_data, getMeasurement, hsc, hv, ht, hp, hf, hr]⟩

/-- Witness for the amended C5, at a concrete record missing `vibration` and
at the concrete NaN record. -/
theorem C5_witness :
    (∃ f, interface_main regIdentity (.parsed readingMissingVib) =
      .jsonError (.missingField f) (getEcho readingMissingVib "timestamp")
        (getEcho readingMissingVib "machineId")
        (getEcho readingMissingVib "machineType")) ∧
    (∃ v, preprocess_data regIdentity readingNaN (.str "Pump") = .ok v) :=
  ⟨C5_missing_key_fails_but_values_unchecked.1 regIdentity readingMissingVib
      "vibration" (by simp [measurement_keys]) (by with_unfolding_all rfl),
   C5_missing_key_fails_but_values_unchecked.2 regIdentity readingNaN
      (.str "Pump") idArtifact (by with_unfolding_all rfl)
      (by intro k hk
          fin_cases hk
          · exact ⟨.nan, by with_unfolding_all rfl⟩
          · exact ⟨.fin 50, by with_unfolding_all rfl⟩
          · exact ⟨.fin 5, by with_unfolding_all rfl⟩
          · exact ⟨.fin 20, by with_unfolding_all rfl⟩
          · exact ⟨.fin 3000, by with_unfolding_all rfl⟩)⟩

/-!
### Characterization of `load_models`
-/

/-- Rewriting `load_step` in terms of `loadPair`: an iteration extends both maps with
the loaded pair, or leaves both untouched. -/
theorem load_step_eq (env : LoadEnv) (reg : Registry) (mt : String) :
    load_step env reg mt =
      match loadPair env mt with
      | some p =>
        { models := reg.models ++ [(mt, p.1)]
          scalers := reg.scalers ++ [(mt, p.2)] }
      | none => reg := by
  unfold load_step loadPair
  by_cases hc : (env.modelFileExists mt && env.scalerFileExists mt) = true
  · simp only [hc, if_true]
    cases env.loadModel mt <;> cases env.loadScaler mt <;> rfl
  · simp only [Bool.not_eq_true] at hc
    simp [hc]

/-- The `load_models` fold, fully characterized: the two maps hold, in
machine-type order, exactly the machine types whose artifact pair loads. -/
theorem load_foldl_eq (env : LoadEnv) :
    ∀ (l : List String) (reg : Registry),
      l.foldl (load_step env) reg =
        { models := reg.models ++
            l.filterMap (fun mt => (loadPair env mt).map (fun p => (mt, p.1)))
          scalers := reg.scalers ++
            l.filterMap (fun mt => (loadPair env mt).map (fun p => (mt, p.2))) }
  | [], reg => by simp
  | mt :: l, reg => by
    rw [List.foldl_cons, load_foldl_eq env l, load_step_eq]
    cases h : loadPair env mt with
    | none => simp [List.filterMap_cons, h]
    | some p => simp [List.filterMap_cons, h]

/-- Characterizing `load_models` as the filtered association lists. -/
theorem load_models_eq (env : LoadEnv) :
    load_models env =
      { models := machine_types.filterMap
          (fun mt => (loadPair env mt).map (fun p => (mt, p.1)))
        scalers := machine_types.filterMap
          (fun mt => (loadPair env mt).map (fun p => (mt, p.2))) } := by
  rw [load_models, load_foldl_eq]
  rfl

/-- A dict lookup misses when no binding's key matches. -/
theorem dictFind_eq_none_of_no_key {β : Type} (m : List (String × β))
    (k : JVal) (h : ∀ p ∈ m, k ≠ JVal.str p.1) : dictFind m k = none := by
  unfold dictFind
  rw [List.find?_eq_none.mpr]
  · rfl
  · intro p hp
    simpa using h p hp

/-- Dict lookup on a cons cell. -/
theorem dictFind_cons {β : Type} (a : String) (b : β) (m : List (String × β))
    (k : JVal) :
    dictFind ((a, b) :: m) k =
      if k = JVal.str a then some b else dictFind m k := by
  unfold dictFind
  rw [List.find?_cons]
  by_cases hk : k = JVal.str a
  · simp [hk]
  · simp [hk]

/-- Lookup in an association list built by `filterMap` over a duplicate-free
key list. -/
theorem dictFind_filterMap {β : Type} (o : String → Option β)
    (l : List String) (hnd : l.Nodup) (k : JVal) :
    dictFind (l.filterMap (fun mt => (o mt).map (fun b => (mt, b)))) k =
      (l.find? (fun mt => k = JVal.str mt)).bind o := by
  induction l with
  | nil => rfl
  | cons a l ih =>
    obtain ⟨hal, hnd'⟩ := List.nodup_cons.mp hnd
    rw [List.filterMap_cons, List.find?_cons]
    cases ho : o a with
    | none =>
      simp only [ho, Option.map_none']
      by_cases hk : k = JVal.str a
      · rw [decide_eq_true hk]
        show dictFind _ k = o a
        rw [ho]
        refine dictFind_eq_none_of_no_key _ _ ?_
        intro p hp
        obtain ⟨mt, hmt, hpm⟩ := List.mem_filterMap.mp hp
        cases hop : o mt with
        | none => rw [hop] at hpm; exact absurd hpm (by simp)
        | some c =>
          rw [hop, Option.map_some'] at hpm
          cases hpm
          rw [hk]
          intro hcon
          injection hcon with hcon
          exact hal (by rw [hcon]; exact hmt)
      · rw [decide_eq_false hk]
        exact ih hnd'
    | some b =>
      simp only [ho, Option.map_some']
      rw [dictFind_cons]
      by_cases hk : k = JVal.str a
      · rw [if_pos hk, decide_eq_true hk]
        show some b = o a
        rw [ho]
      · rw [if_neg hk, decide_eq_false hk]
        exact ih hnd'

/-- Search with an equality predicate finds the key iff it is present. -/
theorem find?_str_eq (l : List String) (s : String) :
    l.find? (fun mt => JVal.str s = JVal.str mt) =
      if s ∈ l then some s else none := by
  induction l with
  | nil => simp
  | cons a l ih =>
    rw [List.find?_cons]
    by_cases hs : s = a
    · rw [decide_eq_true (show JVal.str s = JVal.str a by rw [hs])]
      simp [hs]
    · rw [decide_eq_false (show ¬(JVal.str s = JVal.str a) by simp [hs]), ih]
      simp [List.mem_cons, hs]

/-- Model lookup after `load_models`, for a string key. -/
theorem dictFind_load_models (env : LoadEnv) (s : String) :
    dictFind (load_models env).models (JVal.str s) =
      (if s ∈ machine_types then (loadPair env s).map (·.1) else none) ∧
    dictFind (load_models env).scalers (JVal.str s) =
      (if s ∈ machine_types then (loadPair env s).map (·.2) else none) := by
  rw [load_models_eq]
  have hm : (fun mt => (loadPair env mt).map (fun p => (mt, p.1))) =
      fun mt => ((loadPair env mt).map (·.1)).map (fun b => (mt, b)) := by
    funext mt
    cases loadPair env mt <;> rfl
  have hs : (fun mt => (loadPair env mt).map (fun p => (mt, p.2))) =
      fun mt => ((loadPair env mt).map (·.2)).map (fun b => (mt, b)) := by
    funext mt
    cases loadPair env mt <;> rfl
  have hnd : machine_types.Nodup := by decide
  constructor
  · dsimp only
    rw [hm, dictFind_filterMap _ _ hnd, find?_str_eq]
    by_cases hmem : s ∈ machine_types
    · rw [if_pos hmem, if_pos hmem]; rfl
    · rw [if_neg hmem, if_neg hmem]; rfl
  · dsimp only
    rw [hs, dictFind_filterMap _ _ hnd, find?_str_eq]
    by_cases hmem : s ∈ machine_types
    · rw [if_pos hmem, if_pos hmem]; rfl
    · rw [if_neg hmem, if_neg hmem]; rfl

/-- Function `predict_anomaly` reads the registry only through the two lookups at its
own machine type. -/
theorem predict_reads_only_own_entries {reg₁ reg₂ : Registry}
    (data : InputData) (k : JVal)
    (hm : dictFind reg₁.models k = dictFind reg₂.models k)
    (hs : dictFind reg₁.scalers k = dictFind reg₂.scalers k) :
    predict_anomaly reg₁ data k = predict_anomaly reg₂ data k := by
  unfold predict_anomaly preprocess_data
  rw [hm, hs]

/-- When `filterMap` keeps the element itself, it is a `filter`. -/
theorem filterMap_option_const {α β : Type} (o : α → Option β) (l : List α) :
    l.filterMap (fun a => (o a).map (fun _ => a)) =
      l.filter (fun a => (o a).isSome) := by
  induction l with
  | nil => rfl
  | cons a l ih =>
    cases h : o a <;> simp [List.filterMap_cons, List.filter_cons, h, ih]

/-- A successful dict lookup pins the key to a string bound in the map. -/
theorem dictFind_some_key {β : Type} (m : List (String × β)) (k : JVal)
    (b : β) (h : dictFind m k = some b) : ∃ s, k = JVal.str s := by
  unfold dictFind at h
  cases hf : m.find? (fun p => k = JVal.str p.1) with
  | none => rw [hf] at h; exact absurd h (by simp)
  | some p =>
    have hp := List.find?_some hf
    exact ⟨p.1, by simpa using hp⟩

/-- An error of `getMeasurement` is a missing-key or conversion error, never a
scaler-lookup error. -/
theorem getMeasurement_error_shape (d : InputData) (key : String)
    (e : PredError) (h : getMeasurement d key = .error e) :
    e = .missingField key ∨ e = .notNumeric key := by
  unfold getMeasurement at h
  split at h
  · left; injection h with h; exact h.symm
  · exact absurd h (by simp)
  · right; injection h with h; exact h.symm

/-- C6. If artifact pairs load successfully for exactly a subset of the
four machine types, `get_machine_types` returns exactly that subset; invoking
`predict_anomaly` for a machine type outside it raises the no-model error,
and predictions for loaded machine types depend only on that machine type's
own artifacts (so failures elsewhere leave them unaffected). -/
theorem C6_partial_availability (env : LoadEnv) :
    get_machine_types (load_models env) =
      machine_types.filter (fun mt => (loadPair env mt).isSome) ∧
    (∀ mt : String, mt ∉ get_machine_types (load_models env) →
      ∀ data : InputData,
        predict_anomaly (load_models env) data (.str mt) =
          .error (.noModel (.str mt))) ∧
    (∀ (env₂ : LoadEnv) (mt : String),
      env.modelFileExists mt = env₂.modelFileExists mt →
      env.scalerFileExists mt = env₂.scalerFileExists mt →
      env.loadModel mt = env₂.loadModel mt →
      env.loadScaler mt = env₂.loadScaler mt →
      ∀ data : InputData,
        predict_anomaly (load_models env) data (.str mt) =
          predict_anomaly (load_models env₂) data (.str mt)) := by
  have havail : get_machine_types (load_models env) =
      machine_types.filter (fun mt => (loadPair env mt).isSome) := by
    rw [get_machine_types, load_models_eq]
    dsimp only
    rw [List.map_filterMap, ← filterMap_option_const (loadPair env)]
    congr 1
    funext mt
    cases loadPair env mt <;> rfl
  refine ⟨havail, ?_, ?_⟩
  · intro mt hmt data
    have hnone : dictFind (load_models env).models (JVal.str mt) = none := by
      rw [(dictFind_load_models env mt).1]
      by_cases hmem : mt ∈ machine_types
      · rw [if_pos hmem]
        cases hp : loadPair env mt with
        | none => rfl
        | some p =>
          exfalso
          refine hmt ?_
          rw [havail]
          exact List.mem_filter.mpr ⟨hmem, by rw [hp]; rfl⟩
      · rw [if_neg hmem]
    unfold predict_anomaly
    rw [hnone]
  · intro env₂ mt h1 h2 h3 h4 data
    have hpair : loadPair env mt = loadPair env₂ mt := by
      unfold loadPair
      rw [h1, h2, h3, h4]
    refine predict_reads_only_own_entries data (.str mt) ?_ ?_
    · rw [(dictFind_load_models env mt).1, (dictFind_load_models env₂ mt).1,
        hpair]
    · rw [(dictFind_load_models env mt).2, (dictFind_load_models env₂ mt).2,
        hpair]

/-- Witness for C6: with three of four artifact pairs present, the available
machine types are exactly those three and scoring the fourth raises the
no-model error. -/
theorem C6_witness :
    predict_anomaly (load_models envThree) readingOk (.str "Valve") =
      .error (.noModel (.str "Valve")) :=
  (C6_partial_availability envThree).2.1 "Valve" (by decide) readingOk

/-- C10. The `models` and `scalers` maps always carry identical key sets:
an entry is added only when both artifacts load; hence whenever the model
lookup in `predict_anomaly` succeeds, the scaler lookup succeeds too and the
missing-scaler branch of `preprocess_data` is unreachable. -/
theorem C10_model_scaler_keys_agree (env : LoadEnv) :
    (load_models env).models.map (·.1) = (load_models env).scalers.map (·.1) ∧
    (∀ (k : JVal) (m : Vec5X → Vec5X),
      dictFind (load_models env).models k = some m →
      (∃ s, dictFind (load_models env).scalers k = some s) ∧
      ∀ data : InputData,
        preprocess_data (load_models env) data k ≠ .error (.noScaler k)) := by
  constructor
  · rw [load_models_eq]
    dsimp only
    rw [List.map_filterMap, List.map_filterMap]
    congr 1
    funext mt
    cases loadPair env mt <;> rfl
  · intro k m hm
    obtain ⟨s, rfl⟩ := dictFind_some_key _ _ _ hm
    rw [(dictFind_load_models env s).1] at hm
    by_cases hmem : s ∈ machine_types
    · rw [if_pos hmem] at hm
      cases hp : loadPair env s with
      | none => rw [hp] at hm; exact absurd hm (by simp)
      | some p =>
        have hsc : dictFind (load_models env).scalers (JVal.str s) =
            some p.2 := by
          rw [(dictFind_load_models env s).2, if_pos hmem, hp]
          rfl
        refine ⟨⟨p.2, hsc⟩, ?_⟩
        intro data hcontra
        unfold preprocess_data at hcontra
        rw [hsc] at hcontra
        rcases h1 : getMeasurement data "vibration" with e1 | v1 <;>
        rcases h2 : getMeasurement data "temperature" with e2 | v2 <;>
        rcases h3 : getMeasurement data "pressure" with e3 | v3 <;>
        rcases h4 : getMeasurement data "flowRate" with e4 | v4 <;>
        rcases h5 : getMeasurement data "rotationalSpeed" with e5 | v5 <;>
          rw [h1, h2, h3, h4, h5] at hcontra <;>
          dsimp only at hcontra
        all_goals
          first
          | exact Except.noConfusion hcontra
          | (injection hcontra with hc
             subst hc
             first
             | (rcases getMeasurement_error_shape _ _ _ h1 with h | h <;>
                 exact absurd h (by simp))
             | (rcases getMeasurement_error_shape _ _ _ h2 with h | h <;>
                 exact absurd h (by simp))
             | (rcases getMeasurement_error_shape _ _ _ h3 with h | h <;>
                 exact absurd h (by simp))
             | (rcases getMeasurement_error_shape _ _ _ h4 with h | h <;>
                 exact absurd h (by simp))
             | (rcases getMeasurement_error_shape _ _ _ h5 with h | h <;>
                 exact absurd h (by simp)))
    · rw [if_neg hmem] at hm
      exact absurd hm (by simp)

/-- Witness for C10 at the concrete three-of-four environment. -/
theorem C10_witness :
    (∃ s, dictFind (load_models envThree).scalers (.str "Pump") = some s) ∧
    ∀ data : InputData,
      preprocess_data (load_models envThree) data (.str "Pump") ≠
        .error (.noScaler (.str "Pump")) :=
  (C10_model_scaler_keys_agree envThree).2 (.str "Pump") idArtifact
    (by with_unfolding_all rfl)

/-- C7 (code bug). On empty standard input — and likewise on input that
`json.loads` rejects — the exception is raised before the local variable
`data` is bound, so the error handler's `data.get(...)` itself raises
`NameError`: the process exits nonzero but no JSON error object is written,
contradicting the never-crash-silently requirement.  (For parsed input the
handler does produce the structured error JSON.) -/
theorem C7_adapter_crashes_without_json :
    interface_main regIdentity .empty = .crash .noInput ∧
    interface_main regIdentity .malformed = .crash .parseError := ⟨rfl, rfl⟩

/-!
### The training pipeline claims
-/

/-- The min/max fold is bounded by and attained on its inputs. -/
theorem mmFold_spec (vs : List (Fin 5 → ℚ)) :
    ∀ (st0 : ScalerState) (i : Fin 5),
      ((vs.foldl mmStep st0).dataMin i ≤ st0.dataMin i) ∧
      (st0.dataMax i ≤ (vs.foldl mmStep st0).dataMax i) ∧
      (∀ v ∈ vs, (vs.foldl mmStep st0).dataMin i ≤ v i ∧
        v i ≤ (vs.foldl mmStep st0).dataMax i) ∧
      ((vs.foldl mmStep st0).dataMin i = st0.dataMin i ∨
        ∃ v ∈ vs, (vs.foldl mmStep st0).dataMin i = v i) ∧
      ((vs.foldl mmStep st0).dataMax i = st0.dataMax i ∨
        ∃ v ∈ vs, (vs.foldl mmStep st0).dataMax i = v i) := by
  induction vs with
  | nil => simp
  | cons w vs ih =>
    intro st0 i
    rw [List.foldl_cons]
    obtain ⟨hmin, hmax, hmem, hamin, hamax⟩ := ih (mmStep st0 w) i
    have hstep_min : (mmStep st0 w).dataMin i = min (st0.dataMin i) (w i) :=
      rfl
    have hstep_max : (mmStep st0 w).dataMax i = max (st0.dataMax i) (w i) :=
      rfl
    refine ⟨?_, ?_, ?_, ?_, ?_⟩
    · exact le_trans hmin (by rw [hstep_min]; exact min_le_left _ _)
    · exact le_trans (by rw [hstep_max]; exact le_max_left _ _) hmax
    · intro v hv
      rcases List.mem_cons.mp hv with rfl | hv
      · exact ⟨le_trans hmin (by rw [hstep_min]; exact min_le_right _ _),
          le_trans (by rw [hstep_max]; exact le_max_right _ _) hmax⟩
      · exact hmem v hv
    · rcases hamin with h | ⟨v, hv, h⟩
      · rw [h, hstep_min]
        rcases min_cases (st0.dataMin i) (w i) with ⟨hc, -⟩ | ⟨hc, -⟩
        · exact Or.inl hc
        · exact Or.inr ⟨w, List.mem_cons_self _ _, hc⟩
      · exact Or.inr ⟨v, List.mem_cons_of_mem _ hv, h⟩
    · rcases hamax with h | ⟨v, hv, h⟩
      · rw [h, hstep_max]
        rcases max_cases (st0.dataMax i) (w i) with ⟨hc, -⟩ | ⟨hc, -⟩
        · exact Or.inl hc
        · exact Or.inr ⟨w, List.mem_cons_self _ _, hc⟩
      · exact Or.inr ⟨v, List.mem_cons_of_mem _ hv, h⟩

/-- The fitted scaler state is exactly the per-dimension min/max over the
whole fitted sample. -/
theorem minmax_fit_spec (l : List (Fin 5 → ℚ)) (st : ScalerState)
    (h : minmax_fit l = some st) (i : Fin 5) :
    (∀ v ∈ l, st.dataMin i ≤ v i ∧ v i ≤ st.dataMax i) ∧
    (∃ v ∈ l, v i = st.dataMin i) ∧ (∃ v ∈ l, v i = st.dataMax i) := by
  cases l with
  | nil => exact absurd h (by simp [minmax_fit])
  | cons v vs =>
    unfold minmax_fit at h
    injection h with h
    subst h
    obtain ⟨hmin, hmax, hmem, hamin, hamax⟩ := mmFold_spec vs ⟨v, v⟩ i
    refine ⟨?_, ?_, ?_⟩
    · intro u hu
      rcases List.mem_cons.mp hu with rfl | hu
      · exact ⟨hmin, hmax⟩
      · exact hmem u hu
    · rcases hamin with h | ⟨u, hu, h⟩
      · exact ⟨v, List.mem_cons_self _ _, h.symm⟩
      · exact ⟨u, List.mem_cons_of_mem _ hu, h.symm⟩
    · rcases hamax with h | ⟨u, hu, h⟩
      · exact ⟨v, List.mem_cons_self _ _, h.symm⟩
      · exact ⟨u, List.mem_cons_of_mem _ hu, h.symm⟩

/-- C1, counterexample. Two five-record datasets agreeing on their
training prefix (the first `⌊0.8·5⌋ = 4` records) but differing in the last
(validation) record produce different fitted scalers: `prepare_data` fits the
`MinMaxScaler` on the whole frame *before* the 80/20 split, so the fitted
state depends on the validation records. -/
theorem C1_counterexample :
    d1C.length = d2C.length ∧
    d1C.take ((4 * d1C.length) / 5) = d2C.take ((4 * d2C.length) / 5) ∧
    (prepare_data d1C).map (fun p => p.scaler.dataMax 0) = some 10 ∧
    (prepare_data d2C).map (fun p => p.scaler.dataMax 0) = some 20 ∧
    (prepare_data d1C).map (·.scaler) ≠ (prepare_data d2C).map (·.scaler) := by
  have h1 : (prepare_data d1C).map (fun p => p.scaler.dataMax 0) = some 10 := by
    with_unfolding_all rfl
  have h2 : (prepare_data d2C).map (fun p => p.scaler.dataMax 0) = some 20 := by
    with_unfolding_all rfl
  refine ⟨rfl, by with_unfolding_all rfl, h1, h2, ?_⟩
  intro hcon
  have h0 : (prepare_data d1C).map (fun p => p.scaler.dataMax 0) =
      (prepare_data d2C).map (fun p => p.scaler.dataMax 0) := by
    cases hd1 : prepare_data d1C with
    | none => rw [hd1] at hcon; cases hd2 : prepare_data d2C with
      | none => rfl
      | some p2 => rw [hd2] at hcon; exact absurd hcon (by simp)
    | some p1 =>
      rw [hd1] at hcon
      cases hd2 : prepare_data d2C with
      | none => rw [hd2] at hcon; exact absurd hcon (by simp)
      | some p2 =>
        rw [hd2] at hcon
        simp only [Option.map_some', Option.some.injEq] at hcon ⊢
        rw [hcon]
  rw [h1, h2] at h0
  have : (10 : ℚ) = 20 := Option.some.inj h0
  norm_num at this

/-- C1, amended. The fitted ScalerState of `prepare_data` is the exact
per-dimension minimum and maximum over ALL records of the input frame — the
fit runs before the chronological 80/20 split, so it depends on the
validation records as well (training/validation leakage is present in the
code). -/
theorem C1_scaler_fitted_on_all_records (rows : List Row) (p : PrepareOut)
    (hp : prepare_data rows = some p) (i : Fin 5) :
    (∀ r ∈ rows, p.scaler.dataMin i ≤ rowFeatures r i ∧
      rowFeatures r i ≤ p.scaler.dataMax i) ∧
    (∃ r ∈ rows, rowFeatures r i = p.scaler.dataMin i) ∧
    (∃ r ∈ rows, rowFeatures r i = p.scaler.dataMax i) := by
  unfold prepare_data at hp
  simp only [] at hp
  cases hf : minmax_fit (rows.map rowFeatures) with
  | none => rw [hf] at hp; exact absurd hp (by simp)
  | some st =>
    rw [hf] at hp
    simp only [Option.map_some', Option.some.injEq] at hp
    have hscaler : p.scaler = st := by rw [← hp]
    obtain ⟨hbound, hamin, hamax⟩ := minmax_fit_spec _ _ hf i
    rw [hscaler]
    refine ⟨?_, ?_, ?_⟩
    · intro r hr
      exact hbound (rowFeatures r) (List.mem_map.mpr ⟨r, hr, rfl⟩)
    · obtain ⟨v, hv, hveq⟩ := hamin
      obtain ⟨r, hr, rfl⟩ := List.mem_map.mp hv
      exact ⟨r, hr, hveq⟩
    · obtain ⟨v, hv, hveq⟩ := hamax
      obtain ⟨r, hr, rfl⟩ := List.mem_map.mp hv
      exact ⟨r, hr, hveq⟩

/-- Witness for the amended C1, at the concrete dataset `d1C` and
dimension 0. -/
theorem C1_witness :
    (∀ r ∈ d1C, p1C.scaler.dataMin 0 ≤ rowFeatures r 0 ∧
      rowFeatures r 0 ≤ p1C.scaler.dataMax 0) ∧
    (∃ r ∈ d1C, rowFeatures r 0 = p1C.scaler.dataMin 0) ∧
    (∃ r ∈ d1C, rowFeatures r 0 = p1C.scaler.dataMax 0) :=
  C1_scaler_fitted_on_all_records d1C p1C (by with_unfolding_all rfl) 0

/-- The ascending comparator is transitive. -/
theorem ascByTime_trans : ∀ a b c : Row,
    ascByTime a b = true → ascByTime b c = true → ascByTime a c = true :=
  fun _ _ _ h1 h2 =>
    decide_eq_true (le_trans (of_decide_eq_true h1) (of_decide_eq_true h2))

/-- The ascending comparator is total. -/
theorem ascByTime_total : ∀ a b : Row,
    (ascByTime a b || ascByTime b a) = true := by
  intro a b
  rcases le_total a.timestamp b.timestamp with h | h <;>
    simp [ascByTime, h]

/-- The descending comparator is transitive. -/
theorem descByTime_trans : ∀ a b c : Row,
    descByTime a b = true → descByTime b c = true → descByTime a c = true :=
  fun _ _ _ h1 h2 =>
    decide_eq_true (le_trans (of_decide_eq_true h2) (of_decide_eq_true h1))

/-- The descending comparator is total. -/
theorem descByTime_total : ∀ a b : Row,
    (descByTime a b || descByTime b a) = true := by
  intro a b
  rcases le_total a.timestamp b.timestamp with h | h <;>
    simp [descByTime, h]

/-- C9. Training data is retrieved in descending time order up to the row
limit, re-sorted ascending by timestamp before use, and split chronologically
without shuffling: the first `⌊0.8·n⌋` ordered records form the training set
and the rest the validation set. -/
theorem C9_retrieval_and_split (tableRows : List Row) (limit : ℕ) :
    ((tableRows.mergeSort descByTime).take limit).Pairwise
      (fun a b => b.timestamp ≤ a.timestamp) ∧
    (load_rows tableRows limit).Pairwise
      (fun a b => a.timestamp ≤ b.timestamp) ∧
    (load_rows tableRows limit).Perm
      ((tableRows.mergeSort descByTime).take limit) ∧
    (load_rows tableRows limit).length = min limit tableRows.length ∧
    (∀ p : PrepareOut, prepare_data (load_rows tableRows limit) = some p →
      p.X = (load_rows tableRows limit).map
        (fun r => minmax_transform p.scaler (rowFeatures r)) ∧
      p.X.take ((4 * p.X.length) / 5) ++ p.X.drop ((4 * p.X.length) / 5) =
        p.X ∧
      (p.X.take ((4 * p.X.length) / 5)).length =
        (4 * (load_rows tableRows limit).length) / 5 ∧
      (4 * p.X.length) / 5 = Nat.floor ((4 : ℚ) / 5 * p.X.length)) := by
  refine ⟨?_, ?_, ?_, ?_, ?_⟩
  · refine List.Pairwise.sublist (List.take_sublist _ _) ?_
    exact (List.sorted_mergeSort descByTime_trans descByTime_total
      tableRows).imp (fun h => of_decide_eq_true h)
  · exact (List.sorted_mergeSort ascByTime_trans ascByTime_total
      _).imp (fun h => of_decide_eq_true h)
  · exact List.mergeSort_perm _ _
  · rw [load_rows, List.length_mergeSort, List.length_take,
      List.length_mergeSort]
  · intro p hp
    unfold prepare_data at hp
    simp only [] at hp
    cases hf : minmax_fit ((load_rows tableRows limit).map rowFeatures) with
    | none => rw [hf] at hp; exact absurd hp (by simp)
    | some st =>
      rw [hf] at hp
      simp only [Option.map_some', Option.some.injEq] at hp
      have hX : p.X = (load_rows tableRows limit).map
          (fun r => minmax_transform p.scaler (rowFeatures r)) := by
        rw [← hp]
        dsimp only
        rw [List.map_map]
        rfl
      have hlen : p.X.length = (load_rows tableRows limit).length := by
        rw [hX, List.length_map]
      have hdiv_le : (4 * p.X.length) / 5 ≤ p.X.length := by
        calc (4 * p.X.length) / 5 ≤ (4 * p.X.length) / 4 :=
              Nat.div_le_div_left (by norm_num) (by norm_num)
          _ = p.X.length := Nat.mul_div_cancel_left _ (by norm_num)
      refine ⟨hX, List.take_append_drop _ _, ?_, ?_⟩
      · rw [List.length_take, hlen]
        exact min_eq_left (hlen ▸ hdiv_le)
      · have hcast : (4 : ℚ) / 5 * (p.X.length : ℚ) =
            ((4 * p.X.length : ℕ) : ℚ) / ((5 : ℕ) : ℚ) := by
          push_cast
          ring
        rw [hcast, Nat.floor_div_nat, Nat.floor_natCast]

/-- Witness for C9 at the concrete two-row table. -/
theorem C9_witness :
    pW.X = (load_rows tableW 10000).map
      (fun r => minmax_transform pW.scaler (rowFeatures r)) ∧
    pW.X.take ((4 * pW.X.length) / 5) ++ pW.X.drop ((4 * pW.X.length) / 5) =
      pW.X ∧
    (pW.X.take ((4 * pW.X.length) / 5)).length =
      (4 * (load_rows tableW 10000).length) / 5 ∧
    (4 * pW.X.length) / 5 = Nat.floor ((4 : ℚ) / 5 * pW.X.length) :=
  (C9_retrieval_and_split tableW 10000).2.2.2.2 pW (by with_unfolding_all rfl)

/-- Nonempty frames always prepare successfully, preserving length. -/
theorem prepare_data_some (df : List Row) (h : df ≠ []) :
    ∃ p, prepare_data df = some p ∧ p.X.length = df.length := by
  cases df with
  | nil => exact absurd rfl h
  | cons r rs =>
    refine ⟨_, rfl, ?_⟩
    simp [prepare_data, minmax_fit, List.length_map]

/-- The training `main` fold, characterized as a `filterMap`. -/
theorem train_foldl_eq (env : TrainEnv μ) :
    ∀ (l : List String) (acc : List (String × TrainResult μ)),
      l.foldl
        (fun acc mt =>
          match train_model_for_machine_type env mt with
          | .ok (some r) => acc ++ [(mt, r)]
          | .ok none => acc
          | .error _ => acc) acc =
      acc ++ l.filterMap (fun mt => (train_entry env mt).map (fun r => (mt, r)))
  | [], acc => by simp
  | mt :: l, acc => by
    rw [List.foldl_cons, train_foldl_eq env l]
    cases htr : train_model_for_machine_type env mt with
    | error e => simp [List.filterMap_cons, train_entry, htr]
    | ok o =>
      cases o with
      | none => simp [List.filterMap_cons, train_entry, htr]
      | some r => simp [List.filterMap_cons, train_entry, htr]

/-- Characterizing `train_main` as the association list of successful machine types. -/
theorem train_main_eq (env : TrainEnv μ) :
    train_main env = machine_types.filterMap
      (fun mt => (train_entry env mt).map (fun r => (mt, r))) := by
  rw [train_main, train_foldl_eq]
  rfl

/-- First-key search in an association list built by `filterMap` over a
duplicate-free key list. -/
theorem find?_fst_filterMap {β : Type} (o : String → Option β)
    (l : List String) (hnd : l.Nodup) (k : String) :
    (l.filterMap (fun mt => (o mt).map (fun b => (mt, b)))).find?
        (fun e => e.1 = k) =
      if k ∈ l then (o k).map (fun b => (k, b)) else none := by
  induction l with
  | nil => simp
  | cons a l ih =>
    obtain ⟨hal, hnd'⟩ := List.nodup_cons.mp hnd
    rw [List.filterMap_cons]
    by_cases hk : k = a
    · subst hk
      rw [if_pos (List.mem_cons_self _ _)]
      cases ho : o k with
      | none =>
        rw [Option.map_none', List.find?_eq_none.mpr]
        intro e he
        obtain ⟨mt, hmt, hme⟩ := List.mem_filterMap.mp he
        cases hom : o mt with
        | none => rw [hom] at hme; exact absurd hme (by simp)
        | some b =>
          rw [hom, Option.map_some'] at hme
          cases hme
          simp only [decide_eq_true_eq]
          rintro rfl
          exact hal hmt
      | some b =>
        rw [Option.map_some', List.find?_cons,
          decide_eq_true (show ((k, b) : String × β).1 = k from rfl)]
    · cases ho : o a with
      | none =>
        rw [Option.map_none', ih hnd']
        simp [List.mem_cons, Ne.symm hk, hk]
      | some b =>
        rw [Option.map_some', List.find?_cons,
          decide_eq_false (by simpa using Ne.symm hk), ih hnd']
        simp [List.mem_cons, Ne.symm hk, hk]

/-- C8. Training for a machine type yields no model (the
insufficient-data outcome) exactly when fewer than 100 records are available
— or fewer than 10 survive preparation — and such a failure never affects the
other machine types: each machine type's entry in the training `main` result
depends only on that machine type's own data and fit outcome. -/
theorem C8_insufficient_data_and_independence {μ : Type} (env : TrainEnv μ) :
    (∀ (mt : String) (rs : List Row), env.dbRows mt = some rs →
      (train_model_for_machine_type env mt = .ok none ↔
        ((load_rows rs 10000).length < 100 ∨
          ∃ p, prepare_data (load_rows rs 10000) = some p ∧
            p.X.length < 10))) ∧
    (∀ mt : String, env.dbRows mt = none →
      train_model_for_machine_type env mt = .ok none) ∧
    (∀ (env₂ : TrainEnv μ) (mt : String),
      env.dbRows mt = env₂.dbRows mt → env.fit mt = env₂.fit mt →
      env.evalLoss mt = env₂.evalLoss mt →
      (train_main env).find? (fun e => e.1 = mt) =
        (train_main env₂).find? (fun e => e.1 = mt)) ∧
    (∀ mt : String, mt ∈ (train_main env).map (·.1) ↔
      (mt ∈ machine_types ∧
        ∃ r, train_model_for_machine_type env mt = .ok (some r))) := by
  have hnd : machine_types.Nodup := by decide
  refine ⟨?_, ?_, ?_, ?_⟩
  · intro mt rs hrs
    unfold train_model_for_machine_type
    rw [hrs]
    simp only [load_data_from_db, Option.map_some']
    by_cases hlen : (load_rows rs 10000).length < 100
    · rw [if_pos hlen]
      exact ⟨fun _ => Or.inl hlen, fun _ => rfl⟩
    · rw [if_neg hlen]
      obtain ⟨p, hp, hplen⟩ := prepare_data_some (load_rows rs 10000)
        (List.length_pos.mp (by omega))
      rw [hp]
      dsimp only
      have h10 : ¬ p.X.length < 10 := by rw [hplen]; omega
      rw [if_neg h10]
      refine iff_of_false ?_ ?_
      · cases hfit : env.fit mt (p.X.take ((4 * p.X.length) / 5))
            (p.y.take ((4 * p.X.length) / 5))
            (p.X.drop ((4 * p.X.length) / 5))
            (p.y.drop ((4 * p.X.length) / 5)) with
        | error e => simp [hfit]
        | ok model => simp [hfit]
      · rintro (h | ⟨p', hp', h10'⟩)
        · exact hlen h
        · cases hp'
          exact h10 h10'
  · intro mt h
    unfold train_model_for_machine_type
    rw [h]
    rfl
  · intro env₂ mt h1 h2 h3
    have hent : train_entry env mt = train_entry env₂ mt := by
      unfold train_entry train_model_for_machine_type
      rw [h1, h2, h3]
    rw [train_main_eq, train_main_eq,
      find?_fst_filterMap _ _ hnd, find?_fst_filterMap _ _ hnd, hent]
  · intro mt
    rw [train_main_eq, List.map_filterMap]
    have : (fun mt => Option.map (fun e => e.1)
        ((train_entry env mt).map (fun r => (mt, r)))) =
        fun mt => (train_entry env mt).map (fun _ => mt) := by
      funext mt
      cases train_entry env mt <;> rfl
    rw [this, filterMap_option_const, List.mem_filter]
    constructor
    · rintro ⟨hmem, hsome⟩
      refine ⟨hmem, ?_⟩
      unfold train_entry at hsome
      cases htr : train_model_for_machine_type env mt with
      | error e => rw [htr] at hsome; exact absurd hsome (by simp)
      | ok o =>
        cases o with
        | none => rw [htr] at hsome; exact absurd hsome (by simp)
        | some r => exact ⟨r, rfl⟩
    · rintro ⟨hmem, r, htr⟩
      refine ⟨hmem, ?_⟩
      unfold train_entry
      rw [htr]
      rfl

/-- Witness for C8: two records are fewer than 100, so `Pump` training yields
no model, and a machine type with no data also yields none. -/
theorem C8_witness :
    train_model_for_machine_type envTr "Pump" = .ok none ∧
    train_model_for_machine_type envTr "Motor" = .ok none :=
  ⟨((C8_insufficient_data_and_independence envTr).1 "Pump" tableW
      (by with_unfolding_all rfl)).mpr
      (Or.inl (by with_unfolding_all decide)),
   (C8_insufficient_data_and_independence envTr).2.1 "Motor"
      (by with_unfolding_all rfl)⟩
